import Mathlib

/-
Verification development for the claude-review real-time coordination
subsystem (EventHub, WatchRegistry, ProcessSupervisor) and its HTTP
handlers.

The EventHub / WatchRegistry / daemon-lifecycle implementations are not
part of the sources available under src/ (only their callers and the
end-to-end tests are), so those components are modelled from the design
specification; each such definition carries a doc comment starting with
"Modelled from the spec:".  The HTTP handlers handleProjectFiles and
handleCreateComment are translated directly from src/handlers.go.

Strings are manipulated through their underlying character lists so that
every definition is executable and kernel-evaluable on concrete inputs.
-/

/-! ### String utilities (kernel-evaluable, mirroring Go stdlib semantics) -/

/-- Character list underlying a string. -/
def chars (s : String) : List Char := s.data

/-- String built from a character list. -/
def ofChars (l : List Char) : String := ⟨l⟩

/-- Whether `l` starts with the pattern `pat` (Go `strings.HasPrefix pat`-style test). -/
def listStarts : List Char → List Char → Bool
  | [], _ => true
  | _ :: _, [] => false
  | a :: as, b :: bs => a = b && listStarts as bs

/-- Whether `l` ends with the pattern `pat` (Go `strings.HasSuffix`). -/
def listEnds (pat l : List Char) : Bool := listStarts pat.reverse l.reverse

/-- Go `strings.TrimPrefix` semantics: drop `pat` from the front of `l` when present,
otherwise return `l` unchanged. -/
def dropStarts (pat l : List Char) : List Char :=
  if listStarts pat l then l.drop pat.length else l

/-- Split a character list on a separator character (Go `strings.Split` on "/"). -/
def splitOnChar (c : Char) : List Char → List (List Char)
  | [] => [[]]
  | a :: rest =>
    let r := splitOnChar c rest
    if a = c then [] :: r
    else match r with
      | [] => [[a]]
      | g :: gs => (a :: g) :: gs

/-- Join groups of characters with a separator (Go `strings.Join`). -/
def joinChars (c : Char) : List (List Char) → List Char
  | [] => []
  | [g] => g
  | g :: gs => g ++ c :: joinChars c gs

/-- ASCII lower-casing of a character list (Go `strings.ToLower` on ASCII names). -/
def lowerChars (l : List Char) : List Char :=
  l.map (fun c => if 'A' ≤ c ∧ c ≤ 'Z' then Char.ofNat (c.toNat + 32) else c)

/-- Whitespace test used by Go `strings.TrimSpace`. -/
def isSpaceChar (c : Char) : Bool :=
  c = ' ' || c = '\t' || c = '\n' || c = '\r'

/-- Go `strings.TrimSpace` on a character list. -/
def trimSpaceChars (l : List Char) : List Char :=
  ((l.dropWhile isSpaceChar).reverse.dropWhile isSpaceChar).reverse

/-- Accumulating decimal parser: `none` when a non-digit is met or no digit was read. -/
def digitsToNat : List Char → Option Nat → Option Nat
  | [], acc => acc
  | c :: rest, acc =>
    if '0' ≤ c ∧ c ≤ '9' then
      digitsToNat rest (some ((acc.getD 0) * 10 + (c.toNat - '0'.toNat)))
    else none

/-- Decimal digit character for a value below 10. -/
def digitChar (n : Nat) : Char := Char.ofNat (48 + n)

/-- Decimal digits of `n`, fuel-driven so the definition is structural. -/
def natDigits : Nat → Nat → List Char
  | 0, _ => []
  | fuel + 1, n =>
    if n < 10 then [digitChar n]
    else natDigits fuel (n / 10) ++ [digitChar (n % 10)]

/-- Decimal rendering of a natural number (PID file contents are decimal text). -/
def natToDec (n : Nat) : String := ofChars (natDigits (n + 1) n)

/-! ### Topics and events -/

/-- Exact-match topic key `(project_directory, file_path)`; two topics are equal
iff both fields are byte-identical. -/
structure Topic where
  projectDirectory : String
  filePath : String
deriving DecidableEq, Repr

/-- Opaque event payloads: the `connected` status payload, a payload identifying
a topic (used by `file_updated`), or an empty payload. -/
inductive Payload
  | statusOk
  | topicOf (t : Topic)
  | emptyPayload
deriving DecidableEq, Repr

/-- Event delivered to subscribers: a name and a payload. -/
structure Event where
  name : String
  payload : Payload
deriving DecidableEq, Repr

/-- The built-in `connected` event with payload status "ok". -/
def connectedEvent : Event := ⟨"connected", Payload.statusOk⟩

/-- The `file_updated` event; its payload identifies the topic. -/
def fileUpdatedEvent (t : Topic) : Event := ⟨"file_updated", Payload.topicOf t⟩

/-! ### EventHub (modelled from the spec, section 4.1) -/

/-- Modelled from the spec: a live connection with a unique id, its owning
topic (one topic for its whole lifetime) and an outbound event queue,
oldest event first. -/
structure Subscriber where
  id : Nat
  topic : Topic
  queue : List Event
deriving DecidableEq, Repr

/-- Modelled from the spec: the EventHub state, a set of subscribers keyed by
topic together with the next fresh subscriber id. -/
structure Hub where
  subs : List Subscriber
  nextId : Nat
deriving DecidableEq, Repr

/-- The hub at process start: no subscribers. -/
def emptyHub : Hub := ⟨[], 0⟩

/-- Modelled from the spec: `subscribe(topic)` always succeeds, registers a fresh
subscriber and synchronously sends it the `connected` event before returning,
so that event is the first entry of the new queue. -/
def Hub.subscribe (h : Hub) (t : Topic) : Nat × Hub :=
  (h.nextId, ⟨h.subs ++ [⟨h.nextId, t, [connectedEvent]⟩], h.nextId + 1⟩)

/-- Delivery of one event to one subscriber when the topic matches exactly. -/
def deliverTo (t : Topic) (e : Event) (s : Subscriber) : Subscriber :=
  if s.topic = t then ⟨s.id, s.topic, s.queue ++ [e]⟩ else s

/-- Modelled from the spec: `publish(topic, event)` delivers the event to every
subscriber currently registered under exactly that topic and to nobody else. -/
def Hub.publish (h : Hub) (t : Topic) (e : Event) : Hub :=
  ⟨h.subs.map (deliverTo t e), h.nextId⟩

/-- Modelled from the spec: `unsubscribe` removes the subscriber; idempotent. -/
def Hub.unsubscribe (h : Hub) (i : Nat) : Hub :=
  ⟨h.subs.filter (fun s => s.id ≠ i), h.nextId⟩

/-- The subscriber registered under id `i`, when present. -/
def Hub.findSub (h : Hub) (i : Nat) : Option Subscriber :=
  h.subs.find? (fun s => s.id = i)

/-- The outbound queue of the subscriber with id `i`, when present. -/
def Hub.queueOf (h : Hub) (i : Nat) : Option (List Event) :=
  (h.findSub i).map Subscriber.queue

/-- Hub operations that may be interleaved after a subscription. -/
inductive HubOp
  | sub (t : Topic)
  | unsub (i : Nat)
  | pub (t : Topic) (e : Event)
deriving DecidableEq, Repr

/-- Apply one hub operation. -/
def Hub.applyOp (h : Hub) : HubOp → Hub
  | HubOp.sub t => (h.subscribe t).2
  | HubOp.unsub i => h.unsubscribe i
  | HubOp.pub t e => h.publish t e

/-- Apply a sequence of hub operations, oldest first. -/
def Hub.applyOps (h : Hub) (ops : List HubOp) : Hub := ops.foldl Hub.applyOp h

/-! ### WatchRegistry (modelled from the spec, section 4.2) -/

/-- Modelled from the spec: one reference-counted filesystem watch for one
absolute path, with the set of interested topics. -/
structure WatchHandle where
  path : String
  refCount : Nat
  topics : List Topic
deriving DecidableEq, Repr

/-- Modelled from the spec: the WatchRegistry, a path-keyed collection of
watch handles. -/
structure Registry where
  watches : List WatchHandle
deriving DecidableEq, Repr

/-- The registry at process start: no watches. -/
def emptyRegistry : Registry := ⟨[]⟩

/-- The invariant "at most one WatchHandle per absolute path at any time". -/
def Registry.wfPaths (r : Registry) : Prop :=
  (r.watches.map WatchHandle.path).Nodup

instance (r : Registry) : Decidable r.wfPaths := by
  unfold Registry.wfPaths
  infer_instance

/-- Modelled from the spec: `acquire(absolute_path, topic)` creates the handle
when none exists for the path, otherwise increments its reference count and
records the topic. -/
def Registry.acquire (r : Registry) (p : String) (t : Topic) : Registry :=
  if (r.watches.find? (fun w => w.path = p)).isSome then
    ⟨r.watches.map (fun w =>
      if w.path = p then
        ⟨w.path, w.refCount + 1, if t ∈ w.topics then w.topics else w.topics ++ [t]⟩
      else w)⟩
  else ⟨r.watches ++ [⟨p, 1, [t]⟩]⟩

/-- Modelled from the spec: `release(absolute_path, topic)` decrements the
reference count and discards the watch when it reaches zero; harmless when no
handle exists (idempotent against double release). -/
def Registry.release (r : Registry) (p : String) : Registry :=
  ⟨(r.watches.map (fun w =>
      if w.path = p then ⟨w.path, w.refCount - 1, w.topics⟩ else w)).filter
    (fun w => w.refCount ≠ 0)⟩

/-- Topics currently watching an absolute path. -/
def Registry.topicsWatching (r : Registry) (p : String) : List Topic :=
  match r.watches.find? (fun w => w.path = p) with
  | some w => w.topics
  | none => []

/-- Registry operations: acquire, release, and the reaction to the watched
path being deleted (stop watching that path silently). -/
inductive RegOp
  | acq (p : String) (t : Topic)
  | rel (p : String)
  | del (p : String)
deriving DecidableEq, Repr

/-- Apply one registry operation. -/
def Registry.applyRegOp (r : Registry) : RegOp → Registry
  | RegOp.acq p t => r.acquire p t
  | RegOp.rel p => r.release p
  | RegOp.del p => ⟨r.watches.filter (fun w => w.path ≠ p)⟩

/-- Filesystem status of a path as observed when a watch is requested. -/
inductive PathStatus
  | ok
  | absent
  | unreadable
deriving DecidableEq, Repr

/-- Modelled from the spec: `acquire` must tolerate the path not existing or
being unreadable; in every case it succeeds (the condition is logged, never
surfaced to the caller) and the connection is kept alive. -/
def Registry.acquireChecked (r : Registry) (st : PathStatus) (p : String) (t : Topic) :
    Except String Registry :=
  match st with
  | PathStatus.ok => Except.ok (r.acquire p t)
  | PathStatus.absent => Except.ok (r.acquire p t)
  | PathStatus.unreadable => Except.ok (r.acquire p t)

/-! ### Combined hub + registry system -/

/-- The coordination subsystem state: the hub and the watch registry. -/
structure Sys where
  hub : Hub
  reg : Registry
deriving DecidableEq, Repr

/-- The system at process start. -/
def emptySys : Sys := ⟨emptyHub, emptyRegistry⟩

/-- Absolute path watched for a topic (project directory joined with the
relative file path). -/
def resolveAbs (t : Topic) : String := t.projectDirectory ++ "/" ++ t.filePath

/-- Modelled from the spec: a browser connection on a topic registers a hub
subscriber and acquires a watch on the topic's absolute path. -/
def Sys.connect (sys : Sys) (t : Topic) : Sys :=
  ⟨(sys.hub.subscribe t).2, sys.reg.acquire (resolveAbs t) t⟩

/-- `n` independent connections on the same topic. -/
def Sys.connectN (sys : Sys) : Nat → Topic → Sys
  | 0, _ => sys
  | n + 1, t => (sys.connectN n t).connect t

/-- Modelled from the spec: a (debounced) change on a watched path publishes
one `file_updated` event to every topic currently watching that path. -/
def Sys.fileChanged (sys : Sys) (p : String) : Sys :=
  ⟨(sys.reg.topicsWatching p).foldl (fun h t => h.publish t (fileUpdatedEvent t)) sys.hub,
   sys.reg⟩

/-- Iterated change notifications. -/
def Sys.fileChangedN (sys : Sys) (p : String) : Nat → Sys
  | 0 => sys
  | n + 1 => (sys.fileChangedN p n).fileChanged p

/-- Modelled from the spec: the debouncer coalesces raw events whose
inter-arrival gap lies within the debounce window; every maximal group of such
events yields exactly one delivered notification, and the final group is
always flushed, so a nonempty burst never yields zero notifications.
Timestamps are listed in arrival order. -/
def debounceCount (w : Nat) : List Nat → Nat
  | [] => 0
  | [_] => 1
  | a :: b :: rest => (if w < b - a then 1 else 0) + debounceCount w (b :: rest)

/-- Modelled from the spec: processing a burst of raw filesystem events on a
watched path delivers one `file_updated` notification per debounced group. -/
def Sys.processBurst (sys : Sys) (p : String) (w : Nat) (ts : List Nat) : Sys :=
  sys.fileChangedN p (debounceCount w ts)

/-- Number of queued events carrying a given name. -/
def countByName (nm : String) (q : List Event) : Nat :=
  (q.filter (fun e => e.name = nm)).length

/-- Raw filesystem notifications reaching the registry. -/
inductive FsRaw
  | modified (p : String)
  | deleted (p : String)
  | dirDeleted (d : String)
deriving DecidableEq, Repr

/-- Modelled from the spec: deletion of a watched file or of its containing
directory is non-fatal; the registry stops watching the affected paths
silently, without touching the hub or the bookkeeping of unrelated paths. -/
def Sys.handleRaw (sys : Sys) : FsRaw → Sys
  | FsRaw.modified p => sys.fileChanged p
  | FsRaw.deleted p => ⟨sys.hub, ⟨sys.reg.watches.filter (fun w => w.path ≠ p)⟩⟩
  | FsRaw.dirDeleted d =>
    ⟨sys.hub,
     ⟨sys.reg.watches.filter
       (fun w => !(decide (w.path = d) || listStarts (chars (d ++ "/")) (chars w.path)))⟩⟩

/-- Requests the process serves besides event streams. -/
inductive AppRequest
  | health
  | connectReq (t : Topic)
deriving DecidableEq, Repr

/-- Responses of the process. -/
inductive AppResponse
  | ok200
  | streamOpened
deriving DecidableEq, Repr

/-- Modelled from the spec: the process keeps serving requests; a health
request always succeeds, a connection request subscribes and acquires. -/
def Sys.handleRequest (sys : Sys) : AppRequest → Sys × AppResponse
  | AppRequest.health => (sys, AppResponse.ok200)
  | AppRequest.connectReq t => (sys.connect t, AppResponse.streamOpened)

/-! ### ProcessSupervisor daemon commands (modelled from the spec, section 4.3) -/

/-- Outcome of a CLI daemon command: exit code, human-readable message, and the
fields a successful `status` reports. -/
structure CmdResult where
  exitCode : Nat
  message : String
  reportedPid : Option Nat
  reportedPort : Option String
  reportedPidFile : Option String
  reportedLogFile : Option String
deriving DecidableEq, Repr

/-- Modelled from the spec: the daemon environment a command observes — the PID
file contents (decimal text) when the file exists, the set of process ids that
respond to a liveness probe, and the fixed well-known paths. -/
structure DaemonEnv where
  pidFileContents : Option String
  livePids : List Nat
  port : String
  pidFilePath : String
  logFilePath : String
deriving DecidableEq, Repr

/-- PID file parsing: trimmed decimal text, `none` when unreadable as a number. -/
def parsePid (s : String) : Option Nat := digitsToNat (trimSpaceChars (chars s)) none

/-- Modelled from the spec: `status()` reads the PID file; absent or stale
(process not alive) reports "Server is not running" with a non-zero exit,
removing a stale file as a side effect; a non-numeric PID file is reported as
not running without crashing; present and alive reports PID, port, PID-file
path and log-file path with exit zero. -/
def statusCmd (env : DaemonEnv) : DaemonEnv × CmdResult :=
  match env.pidFileContents with
  | none => (env, ⟨1, "Server is not running", none, none, none, none⟩)
  | some s =>
    match parsePid s with
    | none => (env, ⟨1, "Server is not running (invalid PID file)", none, none, none, none⟩)
    | some pid =>
      if pid ∈ env.livePids then
        (env, ⟨0, "Server is running", some pid, some env.port,
               some env.pidFilePath, some env.logFilePath⟩)
      else
        ({ env with pidFileContents := none },
         ⟨1, "Server is not running", none, none, none, none⟩)

/-- Modelled from the spec: `start(daemon=true)` refuses with a non-zero exit
and a conflict message when a live PID file already indicates a running
daemon; otherwise it spawns a detached child (given a fresh process id) which
writes its PID to the PID file, and reports success. -/
def startDaemon (env : DaemonEnv) (childPid : Nat) : DaemonEnv × CmdResult :=
  let spawn : DaemonEnv × CmdResult :=
    ({ env with pidFileContents := some (natToDec childPid),
                livePids := childPid :: env.livePids },
     ⟨0, "Server started as daemon", some childPid, none, some env.pidFilePath,
      some env.logFilePath⟩)
  match env.pidFileContents with
  | some s =>
    match parsePid s with
    | some pid =>
      if pid ∈ env.livePids then
        (env, ⟨1, "server is already running", none, none, none, none⟩)
      else spawn
    | none => spawn
  | none => spawn

/-! ### Event-stream connection endpoint (modelled from the spec, section 6) -/

/-- Value of a query parameter, when the parameter is present. -/
def queryParam (params : List (String × String)) (k : String) : Option String :=
  (params.find? (fun kv => kv.1 = k)).map Prod.snd

/-- Response of the connection endpoint. -/
inductive SseOutcome
  | badRequest (status : Nat)
  | stream (subscriberId : Nat)
deriving DecidableEq, Repr

/-- Modelled from the spec: the connection endpoint requires `project_directory`
and `file_path` as query parameters; missing either yields 400 before any
subscription occurs; otherwise the connection is upgraded to an event stream
and `subscribe` is performed immediately. -/
def handleSSE (h : Hub) (params : List (String × String)) : Hub × SseOutcome :=
  match queryParam params "project_directory", queryParam params "file_path" with
  | some pd, some fp =>
    let r := h.subscribe ⟨pd, fp⟩
    (r.2, SseOutcome.stream r.1)
  | some _, none => (h, SseOutcome.badRequest 400)
  | none, some _ => (h, SseOutcome.badRequest 400)
  | none, none => (h, SseOutcome.badRequest 400)

/-! ### Percent-encoding (Go net/url, as used by src/handlers.go) -/

/-- Value of a hexadecimal digit character. -/
def hexVal (c : Char) : Option Nat :=
  if '0' ≤ c ∧ c ≤ '9' then some (c.toNat - '0'.toNat)
  else if 'a' ≤ c ∧ c ≤ 'f' then some (c.toNat - 'a'.toNat + 10)
  else if 'A' ≤ c ∧ c ≤ 'F' then some (c.toNat - 'A'.toNat + 10)
  else none

/-- Go `url.PathUnescape`: decode percent escapes, failing on a malformed
escape; `+` is left unchanged in paths. -/
def unescapeChars : List Char → Option (List Char)
  | [] => some []
  | '%' :: a :: b :: rest =>
    match hexVal a, hexVal b, unescapeChars rest with
    | some x, some y, some r => some (Char.ofNat (16 * x + y) :: r)
    | _, _, _ => none
  | '%' :: _ => none
  | c :: rest => (unescapeChars rest).map (fun r => c :: r)

/-- Characters Go `url.PathEscape` leaves unescaped in a path segment
(alphanumerics, `-_.~`, and the sub-delimiters allowed in segments; in
particular `/` is escaped). -/
def isUnescapedSeg (c : Char) : Bool :=
  ('a' ≤ c ∧ c ≤ 'z') || ('A' ≤ c ∧ c ≤ 'Z') || ('0' ≤ c ∧ c ≤ '9') ||
  c = '-' || c = '_' || c = '.' || c = '~' ||
  c = '$' || c = '&' || c = '+' || c = ':' || c = '=' || c = '@'

/-- Upper-case hexadecimal digit for a value below 16. -/
def hexDigitUpper (n : Nat) : Char :=
  if n < 10 then Char.ofNat (48 + n) else Char.ofNat (55 + n)

/-- Go `url.PathEscape` on a character list. -/
def escapeChars : List Char → List Char
  | [] => []
  | c :: rest =>
    (if isUnescapedSeg c then [c]
     else ['%', hexDigitUpper (c.toNat / 16), hexDigitUpper (c.toNat % 16)]) ++
    escapeChars rest

/-- Go `url.PathEscape` on a string. -/
def pathEscape (s : String) : String := ofChars (escapeChars (chars s))

/-! ### Lexical path cleaning (Go path/filepath) -/

/-- Element processor of Go `filepath.Clean`: walk the slash-separated
elements keeping an output stack (head = innermost component); `.` and empty
elements are dropped, `..` pops a component, escapes above the start when the
path is relative, and is dropped at the root when the path is rooted. -/
def cleanStack (rooted : Bool) : List (List Char) → List (List Char) → List (List Char)
  | stack, [] => stack
  | stack, e :: rest =>
    if e = [] ∨ e = ['.'] then cleanStack rooted stack rest
    else if e = ['.', '.'] then
      match stack with
      | [] => if rooted then cleanStack rooted [] rest
              else cleanStack rooted [['.', '.']] rest
      | top :: below =>
        if top = ['.', '.'] then cleanStack rooted (e :: top :: below) rest
        else cleanStack rooted below rest
    else cleanStack rooted (e :: stack) rest

/-- Go `filepath.Clean` for slash-separated paths. -/
def goClean (s : String) : String :=
  let cs := chars s
  if cs = [] then "."
  else
    let rooted := listStarts ['/'] cs
    let body := joinChars '/' (cleanStack rooted [] (splitOnChar '/' cs)).reverse
    if rooted then (if body = [] then "/" else ofChars ('/' :: body))
    else (if body = [] then "." else ofChars body)

/-- Go `filepath.Join` on two elements: empty elements are skipped and the
result is cleaned (so `..` components are resolved lexically before any
filesystem access). -/
def goJoin (a b : String) : String :=
  if a = "" then (if b = "" then "" else goClean b)
  else if b = "" then goClean a
  else goClean (a ++ "/" ++ b)

/-! ### Filesystem model for the file-serving handler -/

/-- A filesystem node: a regular file with contents, or a directory. -/
inductive FNode
  | file (content : String)
  | dir
deriving DecidableEq, Repr

/-- Filesystem contents keyed by canonical (cleaned) absolute path. -/
structure FsModel where
  entries : List (String × FNode)
deriving DecidableEq, Repr

/-- `os.Stat` / lookup of a canonical absolute path. -/
def FsModel.statOf (fs : FsModel) (p : String) : Option FNode :=
  (fs.entries.find? (fun e => e.1 = p)).map Prod.snd

/-- Response of the `/projects/` file-serving handler. -/
inductive HpfResult
  | badRequest
  | notFound
  | internalError
  | redirect (loc : String)
  | dirListing (project childPath : String)
  | viewerPage (project filePath content : String)
  | rawFile (content : String)
deriving DecidableEq, Repr

/-- Last path component (base name of a cleaned non-empty path, as reported
by `os.Stat` for the markdown-suffix check). -/
def baseName (l : List Char) : List Char := (splitOnChar '/' l).getLastD l

/-- Raw-file branch of handleProjectFiles (src/handlers.go:138-141): the
request is served by `http.FileServer(http.Dir(project))` behind
`http.StripPrefix("/projects/" + url.PathEscape(project), ...)`.  StripPrefix
replies 404 unless the (already percent-decoded) URL path literally starts
with the escaped prefix; FileServer roots the remaining path at the project
directory after a rooted `path.Clean`, which confines it to the project. -/
def serveRaw (project : String) (fs : FsModel) (urlPath : String) : HpfResult :=
  let pfx := chars ("/projects/" ++ pathEscape project)
  if listStarts pfx (chars urlPath) then
    let rem := (chars urlPath).drop pfx.length
    let upath := if listStarts ['/'] rem then rem else '/' :: rem
    match fs.statOf (goJoin project (goClean (ofChars upath))) with
    | some (FNode.file c) => HpfResult.rawFile c
    | some FNode.dir => HpfResult.dirListing project (goClean (ofChars upath))
    | none => HpfResult.notFound
  else HpfResult.notFound

/-- Translation of handleProjectFiles (src/handlers.go:71-142).  `urlPath` is
`r.URL.Path` as the handler observes it (percent-decoded once by the HTTP
server, dot segments preserved — the chi router applies no path cleaning).
`projects` is the ordered list of registered project directories returned by
the storage collaborator.  The handler trims the `/projects/` prefix,
re-applies `url.PathUnescape`, picks the first registered project that
prefixes the decoded path, joins project and child path (`filepath.Join`
cleans `..` components lexically), stats the result, and dispatches to the
directory listing, the markdown viewer (which re-joins and reads the same
path), or the raw file server. -/
def handleProjectFiles (projects : List String) (fs : FsModel) (urlPath : String) :
    HpfResult :=
  let full0 := dropStarts (chars "/projects/") (chars urlPath)
  let fullPath := if listStarts ['/'] full0 then full0 else '/' :: full0
  match unescapeChars fullPath with
  | none => HpfResult.badRequest
  | some decodedPath =>
    match projects.find?
        (fun p => decide (decodedPath = chars p) ||
                  listStarts (chars p ++ ['/']) decodedPath) with
    | none => HpfResult.notFound
    | some project =>
      let childPath := ofChars (dropStarts ['/'] (dropStarts (chars project) decodedPath))
      let absPath := goJoin project childPath
      match fs.statOf absPath with
      | none => HpfResult.notFound
      | some FNode.dir =>
        if listEnds ['/'] (chars urlPath) then HpfResult.dirListing project childPath
        else HpfResult.redirect (urlPath ++ "/")
      | some (FNode.file _) =>
        if listEnds (chars ".md") (lowerChars (baseName (chars absPath))) then
          match fs.statOf (goJoin project childPath) with
          | some (FNode.file c) => HpfResult.viewerPage project childPath c
          | _ => HpfResult.internalError
        else serveRaw project fs urlPath

/-! ### Comment creation handler (src/handlers.go:288-357) -/

/-- Decoded request body of POST /api/comments: the fields of the Comment
struct the handler validates.  Line numbers and the thread root id are
nullable in the wire format, hence options. -/
structure CommentIn where
  projectDirectory : String
  filePath : String
  lineStart : Option Int
  lineEnd : Option Int
  selectedText : String
  commentText : String
  author : String
  rootId : Option Int
deriving DecidableEq, Repr

/-- Response of the comment-creation handler: an HTTP error with its status
code and message, or the stored comment echoed back. -/
inductive CreateResult
  | httpError (status : Nat) (msg : String)
  | created (stored : CommentIn)
deriving DecidableEq, Repr

/-- Translation of handleCreateComment (src/handlers.go:288-357), threaded
over an abstract comment store (persistence lives in the storage collaborator;
`createComment` appends).  Validation order and messages follow the source:
root comments (no root_id) require present, positive line_start and line_end
with line_end >= line_start and a non-empty selected_text; every comment
requires a non-empty comment_text; a missing author defaults to "user".
Validation failures answer 400 before anything is stored. -/
def handleCreateComment (store : List CommentIn) (c : CommentIn) :
    List CommentIn × CreateResult :=
  let err := fun (msg : String) => (store, CreateResult.httpError 400 msg)
  let checkText : List CommentIn × CreateResult :=
    if c.commentText = "" then err "comment_text is required"
    else
      let stored := { c with author := if c.author = "" then "user" else c.author }
      (store ++ [stored], CreateResult.created stored)
  if c.projectDirectory = "" then err "project_directory is required"
  else if c.filePath = "" then err "file_path is required"
  else
    match c.rootId with
    | some _ => checkText
    | none =>
      match c.lineStart with
      | none => err "line_start must be positive"
      | some ls =>
        if ls ≤ 0 then err "line_start must be positive"
        else match c.lineEnd with
          | none => err "line_end must be positive"
          | some le =>
            if le ≤ 0 then err "line_end must be positive"
            else if le < ls then err "line_end must be >= line_start"
            else if c.selectedText = "" then err "selected_text is required for root comments"
            else checkText

/-- Validity of a create-comment request exactly as the claim states it
(spec-side definition, for comparison with the handler): for root comments
line_start and line_end must be present and positive with
line_end >= line_start and selected_text non-empty; for replies those fields
are optional; comment_text must always be non-empty. -/
def claimValidComment (c : CommentIn) : Bool :=
  (match c.rootId with
   | none =>
     (match c.lineStart, c.lineEnd with
      | some ls, some le => decide (0 < ls) && decide (0 < le) && decide (ls ≤ le)
      | _, _ => false) && !(c.selectedText = "")
   | some _ => true) && !(c.commentText = "")

/-! ### Concrete fixtures used by witnesses and counterexample evaluation -/

/-- Topic of a client watching test.md. -/
def topicWA : Topic := ⟨"/tmp/p", "test.md"⟩

/-- Topic of a client watching simple.md under the same project. -/
def topicWB : Topic := ⟨"/tmp/p", "simple.md"⟩

/-- A broadcast event as sent by the CLI after resolving a thread. -/
def evResolvedW : Event := ⟨"comments_resolved", Payload.emptyPayload⟩

/-- A hub with one subscriber on each of the two topics above. -/
def hubW : Hub := ⟨[⟨0, topicWA, [connectedEvent]⟩, ⟨1, topicWB, [connectedEvent]⟩], 2⟩

/-- An empty registry fixture. -/
def regW : Registry := emptyRegistry

/-- A watch handle on simple.md. -/
def watchW : WatchHandle := ⟨"/tmp/p/simple.md", 1, [topicWB]⟩

/-- A system with the two subscribers and a watch per file. -/
def sysW : Sys := ⟨hubW, ⟨[⟨"/tmp/p/test.md", 1, [topicWA]⟩, watchW]⟩⟩

/-- A daemon environment with a stale PID file (process 99999 not alive). -/
def envDeadW : DaemonEnv := ⟨some "99999", [], "4779", "/data/server.pid", "/data/server.log"⟩

/-- A daemon environment whose PID file names a live process. -/
def envLiveW : DaemonEnv := ⟨some "4242", [4242], "4779", "/data/server.pid", "/data/server.log"⟩

/-- Query parameters with project_directory missing. -/
def paramsMissingW : List (String × String) := [("file_path", "test.md")]

/-- Complete query parameters for the connection endpoint. -/
def paramsOkW : List (String × String) :=
  [("project_directory", "/tmp/p"), ("file_path", "test.md")]

/-- Timestamps of a burst of 10 rapid writes. -/
def tsW : List Nat := [0, 50, 100, 150, 200, 250, 300, 350, 400, 450]

/-- The registered projects in the path-traversal scenario. -/
def projC9 : List String := ["/tmp/t/project"]

/-- Filesystem for the path-traversal scenario: the project contains test.md,
and secret.md sits outside the project directory. -/
def fsC9 : FsModel :=
  ⟨[("/tmp/t", FNode.dir), ("/tmp/t/project", FNode.dir),
    ("/tmp/t/project/test.md", FNode.file "# Test"),
    ("/tmp/t/secret.md", FNode.file "SECRET DATA")]⟩

/-- Request path escaping the project directory through a dot-dot segment. -/
def reqC9 : String := "/projects/tmp/t/project/../secret.md"

/-- A valid root comment request. -/
def commentOkW : CommentIn :=
  ⟨"/tmp/p", "test.md", some 1, some 2, "Test Document", "This needs work", "", none⟩

/-- A root comment request with a non-positive line_start. -/
def commentBadW : CommentIn :=
  ⟨"/tmp/p", "test.md", some 0, some 2, "Test Document", "This needs work", "", none⟩

/-! ### Helper lemmas -/

theorem deliverTo_id (t : Topic) (e : Event) (s : Subscriber) :
    (deliverTo t e s).id = s.id := by
  unfold deliverTo
  split <;> rfl

theorem find?_map_deliverTo (l : List Subscriber) (i : Nat) (t : Topic) (e : Event) :
    (l.map (deliverTo t e)).find? (fun s => s.id = i) =
      (l.find? (fun s => s.id = i)).map (deliverTo t e) := by
  induction l with
  | nil => rfl
  | cons a l ih =>
    by_cases h : a.id = i
    · simp [List.find?_cons, deliverTo_id, h]
    · simp [List.find?_cons, deliverTo_id, h, ih]

theorem head?_append_of_head? {α : Type} (q r : List α) (x : α)
    (h : q.head? = some x) : (q ++ r).head? = some x := by
  cases q with
  | nil => simp at h
  | cons a q => simpa using h

theorem find?_append_of_none {α : Type} (p : α → Bool) (l₁ l₂ : List α)
    (h : l₁.find? p = none) : (l₁ ++ l₂).find? p = l₂.find? p := by
  induction l₁ with
  | nil => rfl
  | cons a l ih =>
    rw [List.find?_cons] at h
    cases hp : p a with
    | true => simp [hp] at h
    | false =>
      simp only [hp] at h
      simpa [List.find?_cons, hp] using ih h

/-! ### Claim theorems -/

/-- Claim C1: an event published to a topic is delivered to every connection
currently subscribed to that exact topic (its queue gains the event) and to
no connection subscribed to any other topic (its queue is unchanged),
including topics differing only in file_path. -/
theorem claim_C1 (h : Hub) (t : Topic) (e : Event) (s : Subscriber)
    (hs : h.findSub s.id = some s) :
    (h.publish t e).findSub s.id =
      some (if s.topic = t then ⟨s.id, s.topic, s.queue ++ [e]⟩ else s) := by
  unfold Hub.findSub Hub.publish at *
  simp only [find?_map_deliverTo, hs, Option.map_some]
  rfl

/-- Claim C1 witness: with one subscriber on (project, test.md) and one on
(project, simple.md), a publish to the first topic reaches exactly the first
subscriber; the second queue is unchanged. -/
theorem claim_C1_witness :
    (hubW.publish topicWA evResolvedW).findSub 0 =
      some ⟨0, topicWA, [connectedEvent, evResolvedW]⟩ ∧
    (hubW.publish topicWA evResolvedW).findSub 1 =
      some ⟨1, topicWB, [connectedEvent]⟩ := by
  constructor
  · have h := claim_C1 hubW topicWA evResolvedW ⟨0, topicWA, [connectedEvent]⟩ (by decide)
    simpa using h
  · have h := claim_C1 hubW topicWA evResolvedW ⟨1, topicWB, [connectedEvent]⟩ (by decide)
    simpa using h

theorem headConn_applyOp (i : Nat) (h : Hub) (op : HubOp)
    (H : ∀ s ∈ h.subs, s.id = i → s.queue.head? = some connectedEvent) :
    ∀ s ∈ (h.applyOp op).subs, s.id = i → s.queue.head? = some connectedEvent := by
  cases op with
  | sub t =>
    intro s hs hid
    simp only [Hub.applyOp, Hub.subscribe, List.mem_append, List.mem_singleton] at hs
    rcases hs with hs | hs
    · exact H s hs hid
    · subst hs; rfl
  | unsub j =>
    intro s hs hid
    simp only [Hub.applyOp, Hub.unsubscribe, List.mem_filter] at hs
    exact H s hs.1 hid
  | pub t e =>
    intro s hs hid
    simp only [Hub.applyOp, Hub.publish, List.mem_map] at hs
    obtain ⟨s0, hs0, rfl⟩ := hs
    rw [deliverTo_id] at hid
    have hhead := H s0 hs0 hid
    unfold deliverTo
    split
    · exact head?_append_of_head? _ _ _ hhead
    · exact hhead

theorem headConn_applyOps (i : Nat) (h : Hub) (ops : List HubOp)
    (H : ∀ s ∈ h.subs, s.id = i → s.queue.head? = some connectedEvent) :
    ∀ s ∈ (h.applyOps ops).subs, s.id = i → s.queue.head? = some connectedEvent := by
  induction ops generalizing h with
  | nil => exact H
  | cons op ops ih => exact ih (h.applyOp op) (headConn_applyOp i h op H)

/-- Claim C2: subscribe always succeeds and synchronously places the
`connected` event (payload status ok) in the new subscriber's queue before
returning, and after any sequence of further hub operations that subscriber's
first queued event is still `connected` — it is the first event that
subscriber ever observes on its stream. -/
theorem claim_C2 (h : Hub) (t : Topic) (ops : List HubOp)
    (hwf : ∀ s ∈ h.subs, s.id < h.nextId) :
    (h.subscribe t).2.queueOf (h.subscribe t).1 = some [connectedEvent] ∧
    ∀ q, ((h.subscribe t).2.applyOps ops).queueOf (h.subscribe t).1 = some q →
      q.head? = some connectedEvent := by
  have hnone : h.subs.find? (fun s => s.id = h.nextId) = none := by
    rw [List.find?_eq_none]
    intro s hs
    simp only [decide_eq_true_eq]
    exact Nat.ne_of_lt (hwf s hs)
  constructor
  · unfold Hub.queueOf Hub.findSub Hub.subscribe
    simp only
    rw [find?_append_of_none _ _ _ hnone]
    simp [List.find?_cons]
  · intro q hq
    have H : ∀ s ∈ (h.subscribe t).2.subs, s.id = h.nextId →
        s.queue.head? = some connectedEvent := by
      intro s hs hid
      simp only [Hub.subscribe, List.mem_append, List.mem_singleton] at hs
      rcases hs with hs | hs
      · exact absurd hid (Nat.ne_of_lt (hwf s hs))
      · subst hs; rfl
    have H2 := headConn_applyOps h.nextId (h.subscribe t).2 ops H
    unfold Hub.queueOf Hub.findSub at hq
    cases hfind : ((h.subscribe t).2.applyOps ops).subs.find? (fun s => s.id = (h.subscribe t).1)
      with
    | none => rw [hfind] at hq; simp at hq
    | some s =>
      rw [hfind] at hq
      simp only [Option.map_some', Option.some_inj] at hq
      have hmem := List.mem_of_find?_eq_some hfind
      have hid := List.find?_some hfind
      simp only [decide_eq_true_eq] at hid
      subst hq
      exact H2 s hmem hid

/-- Claim C2 witness: subscribing on a well-formed hub and then running
further subscriptions and publishes leaves `connected` as the first queued
event of the new subscriber. -/
theorem claim_C2_witness :
    ((hubW.subscribe topicWA).2.queueOf (hubW.subscribe topicWA).1 =
      some [connectedEvent]) ∧
    ∀ q, ((hubW.subscribe topicWA).2.applyOps
        [HubOp.pub topicWA evResolvedW, HubOp.sub topicWB] ).queueOf
        (hubW.subscribe topicWA).1 = some q →
      q.head? = some connectedEvent :=
  claim_C2 hubW topicWA [HubOp.pub topicWA evResolvedW, HubOp.sub topicWB] (by decide)

theorem map_path_of_preserve (l : List WatchHandle) (f : WatchHandle → WatchHandle)
    (hf : ∀ w, (f w).path = w.path) :
    (l.map f).map WatchHandle.path = l.map WatchHandle.path := by
  induction l with
  | nil => rfl
  | cons a l ih => simp [hf, ih]

theorem wfPaths_acquire (r : Registry) (p : String) (t : Topic) (hwf : r.wfPaths) :
    (r.acquire p t).wfPaths := by
  unfold Registry.acquire
  unfold Registry.wfPaths at hwf ⊢
  split
  · rw [map_path_of_preserve]
    · exact hwf
    · intro w
      split <;> rfl
  · rename_i hnone
    rw [List.map_append, List.nodup_append]
    refine ⟨hwf, List.nodup_singleton _, ?_⟩
    intro a ha hb
    simp only [List.map_cons, List.map_nil, List.mem_singleton] at hb
    subst hb
    rw [Option.not_isSome_iff_eq_none, List.find?_eq_none] at hnone
    simp only [List.mem_map] at ha
    obtain ⟨w, hw, hwp⟩ := ha
    exact hnone w hw (by simp [hwp])

theorem wfPaths_release (r : Registry) (p : String) (hwf : r.wfPaths) :
    (r.release p).wfPaths := by
  unfold Registry.release
  unfold Registry.wfPaths at hwf ⊢
  have h1 := List.filter_sublist (l := r.watches.map
    (fun w => if w.path = p then ⟨w.path, w.refCount - 1, w.topics⟩ else w))
    (p := fun w => w.refCount ≠ 0)
  have h2 := h1.map WatchHandle.path
  rw [map_path_of_preserve] at h2
  · exact List.Nodup.sublist h2 hwf
  · intro w
    split <;> rfl

theorem wfPaths_applyRegOp (r : Registry) (op : RegOp) (hwf : r.wfPaths) :
    (r.applyRegOp op).wfPaths := by
  cases op with
  | acq p t => exact wfPaths_acquire r p t hwf
  | rel p => exact wfPaths_release r p hwf
  | del p =>
    unfold Registry.wfPaths at hwf ⊢
    exact List.Nodup.sublist ((List.filter_sublist _).map WatchHandle.path) hwf

theorem connectN_spec (t : Topic) :
    ∀ n, 1 ≤ n →
      emptySys.connectN n t =
        ⟨⟨(List.range n).map (fun k => ⟨k, t, [connectedEvent]⟩), n⟩,
         ⟨[⟨resolveAbs t, n, [t]⟩]⟩⟩ := by
  intro n hn
  induction n with
  | zero => omega
  | succ n ih =>
    rcases Nat.eq_zero_or_pos n with h0 | hpos
    · subst h0
      show (emptySys.connectN 0 t).connect t = _
      simp [Sys.connectN, Sys.connect, Hub.subscribe, Registry.acquire, emptySys, emptyHub,
        emptyRegistry, List.range_succ]
    · have ih' := ih hpos
      show (emptySys.connectN n t).connect t = _
      rw [ih']
      simp [Sys.connect, Hub.subscribe, Registry.acquire, List.find?_cons, List.range_succ]

theorem map_deliver_fresh (t : Topic) (e : Event) (l : List Nat) :
    l.map (fun k => deliverTo t e ⟨k, t, [connectedEvent]⟩) =
      l.map (fun k => ⟨k, t, [connectedEvent, e]⟩) := by
  induction l with
  | nil => rfl
  | cons a l ih => simp [deliverTo, ih]

theorem fileChanged_closed (t : Topic) (n : Nat) :
    (Sys.mk ⟨(List.range n).map (fun k => ⟨k, t, [connectedEvent]⟩), n⟩
        ⟨[⟨resolveAbs t, n, [t]⟩]⟩).fileChanged (resolveAbs t) =
      ⟨⟨(List.range n).map (fun k => ⟨k, t, [connectedEvent, fileUpdatedEvent t]⟩), n⟩,
       ⟨[⟨resolveAbs t, n, [t]⟩]⟩⟩ := by
  simp only [Sys.fileChanged, Registry.topicsWatching, List.find?_cons, decide_True]
  simp only [List.foldl_cons, List.foldl_nil, Hub.publish, List.map_map]
  rw [Sys.mk.injEq, Hub.mk.injEq]
  refine ⟨⟨?_, rfl⟩, rfl⟩
  exact map_deliver_fresh t (fileUpdatedEvent t) (List.range n)

/-- Claim C3: at every moment there is at most one WatchHandle per absolute
path (the invariant is preserved by every registry operation); and when n
independent connections subscribe to the same (project, file) topic, the
registry holds exactly one watch for that path and a single qualifying file
write delivers exactly one file_updated notification to each of the n
connections. -/
theorem claim_C3 (n : Nat) (t : Topic) (hn : 1 ≤ n) :
    (∀ (r : Registry) (op : RegOp), r.wfPaths → (r.applyRegOp op).wfPaths) ∧
    ((emptySys.connectN n t).reg.watches.filter
        (fun w => w.path = resolveAbs t)).length = 1 ∧
    (emptySys.connectN n t).reg.wfPaths ∧
    ((emptySys.connectN n t).fileChanged (resolveAbs t)).hub.subs.length = n ∧
    ∀ s ∈ ((emptySys.connectN n t).fileChanged (resolveAbs t)).hub.subs,
      s.queue = [connectedEvent, fileUpdatedEvent t] := by
  have hspec := connectN_spec t n hn
  refine ⟨fun r op h => wfPaths_applyRegOp r op h, ?_, ?_, ?_, ?_⟩
  · rw [hspec]
    simp [List.filter_cons]
  · rw [hspec]
    show (([⟨resolveAbs t, n, [t]⟩] : List WatchHandle).map WatchHandle.path).Nodup
    simp
  · rw [hspec, fileChanged_closed]
    simp
  · rw [hspec, fileChanged_closed]
    intro s hs
    simp only [List.mem_map] at hs
    obtain ⟨k, _, rfl⟩ := hs
    rfl

/-- Claim C3 witness: three clients on the same (project, file). -/
theorem claim_C3_witness :
    (∀ (r : Registry) (op : RegOp), r.wfPaths → (r.applyRegOp op).wfPaths) ∧
    ((emptySys.connectN 3 topicWA).reg.watches.filter
        (fun w => w.path = resolveAbs topicWA)).length = 1 ∧
    (emptySys.connectN 3 topicWA).reg.wfPaths ∧
    ((emptySys.connectN 3 topicWA).fileChanged (resolveAbs topicWA)).hub.subs.length = 3 ∧
    ∀ s ∈ ((emptySys.connectN 3 topicWA).fileChanged (resolveAbs topicWA)).hub.subs,
      s.queue = [connectedEvent, fileUpdatedEvent topicWA] :=
  claim_C3 3 topicWA (by decide)

theorem debounce_ge_one (w : Nat) : ∀ ts : List Nat, ts ≠ [] → 1 ≤ debounceCount w ts
  | [], h => absurd rfl h
  | [_], _ => by simp [debounceCount]
  | a :: b :: rest, _ => by
    have ih := debounce_ge_one w (b :: rest) (by simp)
    simp only [debounceCount]
    split <;> omega

theorem debounce_le_len (w : Nat) : ∀ ts : List Nat, debounceCount w ts ≤ ts.length
  | [] => by simp [debounceCount]
  | [_] => by simp [debounceCount]
  | a :: b :: rest => by
    have ih := debounce_le_len w (b :: rest)
    simp only [debounceCount, List.length_cons] at *
    split <;> omega

theorem fileChangedN_one (t : Topic) :
    ∀ k, (emptySys.connectN 1 t).fileChangedN (resolveAbs t) k =
      ⟨⟨[⟨0, t, connectedEvent :: List.replicate k (fileUpdatedEvent t)⟩], 1⟩,
       ⟨[⟨resolveAbs t, 1, [t]⟩]⟩⟩ := by
  have hbase := connectN_spec t 1 (le_refl 1)
  intro k
  induction k with
  | zero =>
    show emptySys.connectN 1 t = _
    rw [hbase]
    simp [List.range_succ]
  | succ k ih =>
    show ((emptySys.connectN 1 t).fileChangedN (resolveAbs t) k).fileChanged (resolveAbs t) = _
    rw [ih]
    simp [Sys.fileChanged, Registry.topicsWatching, List.find?_cons, Hub.publish, deliverTo,
      List.replicate_succ']

theorem countByName_cons_ne (nm : String) (e : Event) (q : List Event)
    (h : e.name ≠ nm) : countByName nm (e :: q) = countByName nm q := by
  unfold countByName
  simp [List.filter_cons, h]

theorem countByName_replicate (t : Topic) :
    ∀ k, countByName "file_updated" (List.replicate k (fileUpdatedEvent t)) = k := by
  intro k
  induction k with
  | zero => rfl
  | succ k ih =>
    rw [List.replicate_succ]
    unfold countByName at *
    simp only [List.filter_cons]
    rw [if_pos]
    · simpa using ih
    · simp [fileUpdatedEvent]

/-- Claim C4: a burst of 10 rapid writes to a watched file yields at least 1
and at most 10 file_updated notifications for a subscriber on that file's
topic — debouncing may coalesce events within the burst but never drops all
of them. -/
theorem claim_C4 (w : Nat) (ts : List Nat) (t : Topic) (hlen : ts.length = 10) :
    (1 ≤ debounceCount w ts ∧ debounceCount w ts ≤ 10) ∧
    ∀ s ∈ ((emptySys.connectN 1 t).processBurst (resolveAbs t) w ts).hub.subs,
      1 ≤ countByName "file_updated" s.queue ∧
      countByName "file_updated" s.queue ≤ 10 := by
  have hne : ts ≠ [] := by
    intro h
    rw [h] at hlen
    simp at hlen
  have h1 := debounce_ge_one w ts hne
  have h2 := debounce_le_len w ts
  rw [hlen] at h2
  refine ⟨⟨h1, h2⟩, ?_⟩
  intro s hs
  unfold Sys.processBurst at hs
  rw [fileChangedN_one] at hs
  simp only [List.mem_singleton] at hs
  subst hs
  rw [countByName_cons_ne _ _ _ (by simp [connectedEvent]), countByName_replicate]
  exact ⟨h1, h2⟩

/-- Claim C4 witness: a concrete burst of 10 writes 50 ms apart. -/
theorem claim_C4_witness :
    (1 ≤ debounceCount 100 tsW ∧ debounceCount 100 tsW ≤ 10) ∧
    ∀ s ∈ ((emptySys.connectN 1 topicWA).processBurst (resolveAbs topicWA) 100 tsW).hub.subs,
      1 ≤ countByName "file_updated" s.queue ∧
      countByName "file_updated" s.queue ≤ 10 :=
  claim_C4 100 tsW topicWA (by decide)

/-- Claim C5: acquiring a watch tolerates the path being absent or unreadable
(it always returns successfully, surfacing no error to the caller), and
deletion of a watched file or of its containing directory is non-fatal: the
hub (and hence every open SSE connection) is untouched, unrelated watches
keep their bookkeeping, and the process stays responsive to subsequent
unrelated requests. -/
theorem claim_C5 :
    (∀ (r : Registry) (st : PathStatus) (p : String) (t : Topic),
        ∃ r2, r.acquireChecked st p t = Except.ok r2) ∧
    (∀ (sys : Sys) (p : String),
        (sys.handleRaw (FsRaw.deleted p)).hub = sys.hub ∧
        ((sys.handleRaw (FsRaw.deleted p)).handleRequest AppRequest.health).2 =
          AppResponse.ok200 ∧
        ∀ w ∈ sys.reg.watches, w.path ≠ p →
          w ∈ (sys.handleRaw (FsRaw.deleted p)).reg.watches) ∧
    (∀ (sys : Sys) (d : String),
        (sys.handleRaw (FsRaw.dirDeleted d)).hub = sys.hub ∧
        ((sys.handleRaw (FsRaw.dirDeleted d)).handleRequest AppRequest.health).2 =
          AppResponse.ok200) := by
  refine ⟨?_, ?_, ?_⟩
  · intro r st p t
    cases st <;> exact ⟨_, rfl⟩
  · intro sys p
    refine ⟨rfl, rfl, ?_⟩
    intro w hw hwp
    simp only [Sys.handleRaw, List.mem_filter]
    exact ⟨hw, by simpa using hwp⟩
  · intro sys d
    exact ⟨rfl, rfl⟩

/-- Claim C5 witness: deleting simple.md leaves the hub untouched, keeps the
watch on test.md, and the process still answers a health request. -/
theorem claim_C5_witness :
    (∃ r2, regW.acquireChecked PathStatus.absent "/tmp/p/missing.md" topicWA =
      Except.ok r2) ∧
    (sysW.handleRaw (FsRaw.deleted "/tmp/p/simple.md")).hub = sysW.hub ∧
    ((sysW.handleRaw (FsRaw.deleted "/tmp/p/simple.md")).handleRequest
      AppRequest.health).2 = AppResponse.ok200 ∧
    (⟨"/tmp/p/test.md", 1, [topicWA]⟩ : WatchHandle) ∈
      (sysW.handleRaw (FsRaw.deleted "/tmp/p/simple.md")).reg.watches := by
  refine ⟨claim_C5.1 regW PathStatus.absent "/tmp/p/missing.md" topicWA,
    (claim_C5.2.1 sysW "/tmp/p/simple.md").1,
    (claim_C5.2.1 sysW "/tmp/p/simple.md").2.1, ?_⟩
  exact (claim_C5.2.1 sysW "/tmp/p/simple.md").2.2 ⟨"/tmp/p/test.md", 1, [topicWA]⟩
    (by decide) (by decide)

/-- Claim C6: for every PID file recording a process that is no longer alive,
status reports "Server is not running" with a non-zero exit, removes the
stale PID file as a side effect, and a subsequent daemon start succeeds. -/
theorem claim_C6 (env : DaemonEnv) (s : String) (pid : Nat)
    (hfile : env.pidFileContents = some s)
    (hpid : parsePid s = some pid)
    (hdead : pid ∉ env.livePids) :
    (statusCmd env).2.exitCode ≠ 0 ∧
    (statusCmd env).2.message = "Server is not running" ∧
    (statusCmd env).1.pidFileContents = none ∧
    ∀ fresh : Nat, (startDaemon (statusCmd env).1 fresh).2.exitCode = 0 ∧
      (startDaemon (statusCmd env).1 fresh).2.message = "Server started as daemon" := by
  unfold statusCmd
  rw [hfile]
  simp only [hpid]
  rw [if_neg hdead]
  refine ⟨Nat.one_ne_zero, rfl, rfl, ?_⟩
  intro fresh
  unfold startDaemon
  exact ⟨rfl, rfl⟩

/-- Claim C6 witness: a PID file naming dead process 99999. -/
theorem claim_C6_witness :
    (statusCmd envDeadW).2.exitCode ≠ 0 ∧
    (statusCmd envDeadW).2.message = "Server is not running" ∧
    (statusCmd envDeadW).1.pidFileContents = none ∧
    ∀ fresh : Nat, (startDaemon (statusCmd envDeadW).1 fresh).2.exitCode = 0 ∧
      (startDaemon (statusCmd envDeadW).1 fresh).2.message = "Server started as daemon" :=
  claim_C6 envDeadW "99999" 99999 rfl (by decide) (by decide)

/-- Claim C7: when a live PID file already indicates a running daemon, a
second daemon start refuses: it exits non-zero with a message identifying the
conflict and changes nothing. -/
theorem claim_C7 (env : DaemonEnv) (s : String) (pid : Nat) (fresh : Nat)
    (hfile : env.pidFileContents = some s)
    (hpid : parsePid s = some pid)
    (halive : pid ∈ env.livePids) :
    (startDaemon env fresh).2.exitCode ≠ 0 ∧
    (startDaemon env fresh).2.message = "server is already running" ∧
    (startDaemon env fresh).1 = env := by
  unfold startDaemon
  rw [hfile]
  simp only [hpid]
  rw [if_pos halive]
  exact ⟨Nat.one_ne_zero, rfl, rfl⟩

/-- Claim C7 witness: a second start against a live PID file. -/
theorem claim_C7_witness :
    (startDaemon envLiveW 5000).2.exitCode ≠ 0 ∧
    (startDaemon envLiveW 5000).2.message = "server is already running" ∧
    (startDaemon envLiveW 5000).1 = envLiveW :=
  claim_C7 envLiveW "4242" 4242 5000 rfl (by decide) (by decide)

/-- Claim C8: a connection request missing project_directory, file_path, or
both is answered 400 with the hub untouched (no subscriber registered, the
request never reaches the hub); when both are present the connection becomes
an event stream and subscribe is performed immediately. -/
theorem claim_C8 (h : Hub) (params : List (String × String)) :
    ((queryParam params "project_directory" = none ∨
        queryParam params "file_path" = none) →
      (handleSSE h params).2 = SseOutcome.badRequest 400 ∧
      (handleSSE h params).1 = h) ∧
    (∀ pd fp, queryParam params "project_directory" = some pd →
      queryParam params "file_path" = some fp →
      (handleSSE h params).1 = (h.subscribe ⟨pd, fp⟩).2 ∧
      (handleSSE h params).2 = SseOutcome.stream (h.subscribe ⟨pd, fp⟩).1) := by
  constructor
  · intro hmiss
    unfold handleSSE
    rcases hmiss with hmiss | hmiss
    · rw [hmiss]
      cases queryParam params "file_path" <;> exact ⟨rfl, rfl⟩
    · rw [hmiss]
      cases queryParam params "project_directory" <;> exact ⟨rfl, rfl⟩
  · intro pd fp hpd hfp
    unfold handleSSE
    rw [hpd, hfp]
    exact ⟨rfl, rfl⟩

/-- Claim C8 witness: a request missing project_directory is rejected with
400 and the hub is unchanged; a complete request subscribes immediately. -/
theorem claim_C8_witness :
    ((handleSSE hubW paramsMissingW).2 = SseOutcome.badRequest 400 ∧
     (handleSSE hubW paramsMissingW).1 = hubW) ∧
    ((handleSSE hubW paramsOkW).1 = (hubW.subscribe ⟨"/tmp/p", "test.md"⟩).2 ∧
     (handleSSE hubW paramsOkW).2 =
       SseOutcome.stream (hubW.subscribe ⟨"/tmp/p", "test.md"⟩).1) :=
  ⟨(claim_C8 hubW paramsMissingW).1 (Or.inl (by decide)),
   (claim_C8 hubW paramsOkW).2 "/tmp/p" "test.md" (by decide) (by decide)⟩

/-- Claim C9 (evaluation of the code at the failing input): with project
/tmp/t/project registered and /tmp/t/secret.md lying outside it, the request
GET /projects/tmp/t/project/../secret.md is answered 200 by the markdown
viewer with the outside file's content — filepath.Join resolves the dot-dot
segment lexically before os.Stat, the project-prefix check was done on the
un-resolved path, and renderViewer reads the escaped path; so the handler
does serve content from outside every registered project directory,
contradicting the claim. -/
theorem claim_C9 :
    handleProjectFiles projC9 fsC9 reqC9 =
      HpfResult.viewerPage "/tmp/t/project" "../secret.md" "SECRET DATA" ∧
    goJoin "/tmp/t/project" "../secret.md" = "/tmp/t/secret.md" ∧
    (∀ p ∈ projC9, ¬("/tmp/t/secret.md" = p ∨
        listStarts (chars (p ++ "/")) (chars "/tmp/t/secret.md") = true)) := by
  refine ⟨by decide, by decide, ?_⟩
  decide

/-- Claim C10: the comment-creation handler accepts a request exactly when
the claim's validation conditions hold (for root comments line_start and
line_end present and positive with line_end >= line_start and non-empty
selected_text; those fields optional for replies; comment_text always
non-empty); every violation is answered with HTTP 400 and nothing is stored,
and an omitted author defaults to "user" in the stored comment. -/
theorem claim_C10 (store : List CommentIn) (c : CommentIn)
    (hpd : c.projectDirectory ≠ "") (hfp : c.filePath ≠ "") :
    (claimValidComment c = true →
      handleCreateComment store c =
        (store ++ [{ c with author := if c.author = "" then "user" else c.author }],
         CreateResult.created { c with author := if c.author = "" then "user" else c.author })) ∧
    (claimValidComment c = false →
      (∃ m, (handleCreateComment store c).2 = CreateResult.httpError 400 m) ∧
      (handleCreateComment store c).1 = store) := by
  obtain ⟨cpd, cfp, cls, cle, cst, cct, cau, crt⟩ := c
  constructor
  · intro hv
    simp only [claimValidComment] at hv
    cases crt with
    | some rid =>
      simp only [Bool.true_and, Bool.not_eq_true', decide_eq_false_iff_not] at hv
      simp [handleCreateComment, hpd, hfp, hv]
    | none =>
      cases cls with
      | none => simp at hv
      | some ls =>
        cases cle with
        | none => simp at hv
        | some le =>
          simp only [Bool.and_eq_true, decide_eq_true_eq, Bool.not_eq_true',
            decide_eq_false_iff_not] at hv
          obtain ⟨⟨⟨⟨h1, h2⟩, h3⟩, h4⟩, h5⟩ := hv
          simp [handleCreateComment, hpd, hfp, h4, h5]
          rw [if_neg (by omega : ¬ ls ≤ 0), if_neg (by omega : ¬ le ≤ 0),
            if_neg (by omega : ¬ le < ls)]
  · intro hv
    cases crt with
    | some rid =>
      simp only [claimValidComment, Bool.true_and] at hv
      have hct : cct = "" := by simpa using hv
      simp [handleCreateComment, hpd, hfp, hct]
    | none =>
      cases cls with
      | none => simp [handleCreateComment, hpd, hfp]
      | some ls =>
        by_cases hls0 : ls ≤ 0
        · simp [handleCreateComment, hpd, hfp, hls0]
        · cases cle with
          | none => simp [handleCreateComment, hpd, hfp, hls0]
          | some le =>
            by_cases hle0 : le ≤ 0
            · simp [handleCreateComment, hpd, hfp, hls0, hle0]
            · by_cases hord : le < ls
              · simp [handleCreateComment, hpd, hfp, hls0, hle0, hord]
              · by_cases hsel : cst = ""
                · simp [handleCreateComment, hpd, hfp, hls0, hle0, hord, hsel]
                · by_cases hct : cct = ""
                  · simp [handleCreateComment, hpd, hfp, hls0, hle0, hord, hsel, hct]
                  · exfalso
                    have hvt : claimValidComment ⟨cpd, cfp, some ls, some le, cst, cct, cau, none⟩ = true := by
                      simp only [claimValidComment, Bool.and_eq_true, decide_eq_true_eq,
                        Bool.not_eq_true', decide_eq_false_iff_not]
                      exact ⟨⟨⟨⟨by omega, by omega⟩, by omega⟩, hsel⟩, hct⟩
                    rw [hvt] at hv
                    simp at hv

/-- Claim C10 witness: a valid root comment with omitted author is stored
with author "user"; the same comment with line_start 0 is rejected with 400
and nothing stored. -/
theorem claim_C10_witness :
    (handleCreateComment [] commentOkW =
      ([{ commentOkW with
           author := if commentOkW.author = "" then "user" else commentOkW.author }],
       CreateResult.created { commentOkW with
           author := if commentOkW.author = "" then "user" else commentOkW.author })) ∧
    ((∃ m, (handleCreateComment [] commentBadW).2 = CreateResult.httpError 400 m) ∧
     (handleCreateComment [] commentBadW).1 = []) :=
  ⟨(claim_C10 [] commentOkW (by decide) (by decide)).1 (by decide),
   (claim_C10 [] commentBadW (by decide) (by decide)).2 (by decide)⟩
